import Mathlib

/-!
Verification development for the DocHumanize concurrent unit-processing
pipeline (`main.py`) and its Ollama HTTP client (`ollama_humanize.py`).

The document model follows python-docx as used by the sources: a paragraph
is a list of runs (each run has a text and a style record) together with
paragraph-level format attributes; `paragraph.text` is the concatenation of
the run texts, and assigning `paragraph.text = s` replaces all runs by a
single run holding `s` with default (unset) direct formatting.

The thread pool of `process_docx_threaded` is modelled by an explicit
completion order: the workers' results are folded into the results
dictionary in an arbitrary permutation of the submitted task list, which
covers every pool size and every interleaving of worker completions.  The
rewrite backend is an oracle `R : Nat → String → Except String String`
giving, per submitted paragraph index, either the rewritten text or the
exception message raised inside the worker's rewrite call.
-/

namespace DocHumanize

/-- Per-run style attributes captured by `process_paragraph_threaded`
(bold/italic/underline/font name/size/color); each may be unset (`none`),
as in python-docx. -/
structure RunFormat where
  bold : Option Bool
  italic : Option Bool
  underline : Option Bool
  font_name : Option String
  font_size : Option Nat
  font_color : Option Nat
deriving DecidableEq

/-- The direct formatting of a freshly created run: every attribute unset. -/
def defaultRunFormat : RunFormat := ⟨none, none, none, none, none, none⟩

/-- A run: a contiguous sub-span of a paragraph's text with one style. -/
structure Run where
  text : String
  fmt : RunFormat
deriving DecidableEq

/-- Paragraph-level format attributes captured by
`process_paragraph_threaded` (alignment, indents, spacing). -/
structure ParagraphFormat where
  alignment : Option Nat
  left_indent : Option Int
  right_indent : Option Int
  first_line_indent : Option Int
  space_before : Option Nat
  space_after : Option Nat
  line_spacing : Option Nat
deriving DecidableEq

/-- A paragraph: its runs plus paragraph-level format attributes. -/
structure Paragraph where
  runs : List Run
  pfmt : ParagraphFormat
deriving DecidableEq

/-- Python `str.strip()` on the underlying character list: drop leading
and trailing whitespace. -/
def stripChars (l : List Char) : List Char :=
  ((l.dropWhile Char.isWhitespace).reverse.dropWhile Char.isWhitespace).reverse

/-- Python `str.strip()`: the string with leading and trailing whitespace
removed. -/
def pyStrip (s : String) : String := ⟨stripChars s.data⟩

/-- Concatenation of a list of strings (python `''.join`). -/
def strConcat : List String → String
  | [] => ""
  | s :: l => s ++ strConcat l

/-- `paragraph.text` in python-docx: the concatenation of the run texts. -/
def paraText (p : Paragraph) : String := strConcat (p.runs.map Run.text)

/-- The python-docx `paragraph.text = s` setter: all content is replaced by
a single run holding `s` with default (unset) direct formatting. -/
def setText (p : Paragraph) (s : String) : Paragraph :=
  { p with runs := [⟨s, defaultRunFormat⟩] }

/-- The `formatting_data` dict built by `process_paragraph_threaded`:
the per-run style list and the paragraph-level format. -/
structure FormattingData where
  run_formats : List RunFormat
  paragraph_format : ParagraphFormat
deriving DecidableEq

/-- The formatting capture of `process_paragraph_threaded` (main.py lines
48-74): one style record per run, plus the paragraph-level attributes. -/
def captureFormatting (p : Paragraph) : FormattingData :=
  ⟨p.runs.map Run.fmt, p.pfmt⟩

/-- The result tuple of one worker, keyed by index in the results dict:
`(success, humanized_text, formatting_data, error)` collapsed to a sum. -/
inductive Outcome where
  | success (text : String) (fmt : Option FormattingData)
  | failure (err : String)
deriving DecidableEq

/-- `process_paragraph_threaded` (main.py lines 27-79): call the rewrite
oracle on the paragraph's text; on success capture the formatting when
`preserve_formatting` is set; an exception becomes a failure outcome
carrying the reason string.  Returns the `(index, outcome)` pair. -/
def process_paragraph_threaded (R : Nat → String → Except String String)
    (preserve_formatting : Bool) (task : Nat × Paragraph) : Nat × Outcome :=
  match R task.1 (paraText task.2) with
  | .ok t =>
    (task.1, .success t
      (if preserve_formatting then some (captureFormatting task.2) else none))
  | .error e => (task.1, .failure e)

/-- `paragraph.text.strip()` is truthy: the paragraph is non-blank. -/
def nonBlank (p : Paragraph) : Bool := !(pyStrip (paraText p) == "")

/-- The submitted task list (main.py lines 117-126): every
`(index, paragraph)` of the document whose stripped text is non-empty. -/
def submittedTasks (paras : List Paragraph) : List (Nat × Paragraph) :=
  paras.enum.filter (fun ip => nonBlank ip.2)

/-- The indices of the submitted tasks (`paragraph_indices`). -/
def submittedIndices (paras : List Paragraph) : List Nat :=
  (submittedTasks paras).map Prod.fst

/-- The results dictionary (main.py lines 132-150): worker results are
stored under their index as they complete; `order` is the completion
order, a permutation of the submitted task list. -/
def buildResults (R : Nat → String → Except String String)
    (preserve_formatting : Bool) (order : List (Nat × Paragraph)) :
    Nat → Option Outcome :=
  order.foldl
    (fun m task =>
      let r := process_paragraph_threaded R preserve_formatting task
      fun j => if j = r.1 then some r.2 else m j)
    (fun _ => none)

/-- Modelled from the spec: `apply_run_format` is imported from
`docx_processor`, which is not among the sources; per the spec it
"reapplies the first captured run's style to that run", i.e. it writes
the captured bold/italic/underline/font name/size/color onto the run. -/
def apply_run_format (r : Run) (f : RunFormat) : Run := { r with fmt := f }

/-- The preserve-formatting application branch (main.py lines 167-190):
clear every run's text, write the humanized text into the first run
(creating one with default formatting if the paragraph had none), reapply
the first captured run style when one was captured, then restore the
paragraph-level attributes from the captured values. -/
def applyWithFormat (p : Paragraph) (t : String) (fd : FormattingData) :
    Paragraph :=
  let cleared := p.runs.map (fun r => { r with text := "" })
  let runs2 :=
    match cleared with
    | r0 :: rest =>
      let r1 : Run := { r0 with text := t }
      let r2 : Run :=
        match fd.run_formats with
        | f :: _ => apply_run_format r1 f
        | [] => r1
      r2 :: rest
    | [] =>
      let r1 : Run := ⟨t, defaultRunFormat⟩
      let r2 : Run :=
        match fd.run_formats with
        | f :: _ => apply_run_format r1 f
        | [] => r1
      [r2]
  { runs := runs2, pfmt := fd.paragraph_format }

/-- The per-paragraph step of the application phase (main.py lines
156-194): a paragraph with no recorded outcome is skipped; a failure
outcome keeps the original untouched; a success applies the humanized
text with formatting restoration when `preserve_formatting` holds and
formatting data was captured, else by plain text assignment.  The second
component is the paragraph's contribution to `success_count`. -/
def applyOutcome (preserve_formatting : Bool) (m : Nat → Option Outcome)
    (i : Nat) (p : Paragraph) : Paragraph × Nat :=
  match m i with
  | none => (p, 0)
  | some (.failure _) => (p, 0)
  | some (.success t fd) =>
    match fd with
    | some f =>
      if preserve_formatting then (applyWithFormat p t f, 1)
      else (setText p t, 1)
    | none => (setText p t, 1)

/-- The application phase (main.py lines 152-194): walk the document's
paragraphs in ascending index order, applying each recorded outcome;
returns the mutated paragraph list and the final `success_count`. -/
def applyResults (preserve_formatting : Bool) (m : Nat → Option Outcome)
    (paras : List Paragraph) : List Paragraph × Nat :=
  let applied :=
    paras.enum.map (fun ip => applyOutcome preserve_formatting m ip.1 ip.2)
  (applied.map Prod.fst, (applied.map Prod.snd).sum)

/-- One table-cell paragraph of the sequential table pass (main.py lines
198-215): blank cells are skipped; otherwise the rewrite backend is
called on the cell text (the oracle `RT` is keyed by the cell paragraph's
position) and on success the text is replaced by plain assignment; an
exception keeps the original text. -/
def processCellPara (RT : List Nat → String → Except String String)
    (pos : List Nat) (q : Paragraph) : Paragraph :=
  if pyStrip (paraText q) == "" then q
  else
    match RT pos (paraText q) with
    | .ok t => setText q t
    | .error _ => q

/-- The sequential table pass (main.py lines 196-215): every paragraph of
every cell of every row of every table is processed in place. -/
def tablesPass (RT : List Nat → String → Except String String)
    (tables : List (List (List (List Paragraph)))) :
    List (List (List (List Paragraph))) :=
  tables.enum.map (fun tt =>
    tt.2.enum.map (fun rr =>
      rr.2.enum.map (fun cc =>
        cc.2.enum.map (fun qq =>
          processCellPara RT [tt.1, rr.1, cc.1, qq.1] qq.2))))

/-- A docx document as `process_docx_threaded` sees it: the body
paragraphs (`doc.paragraphs`) and the table-cell paragraphs
(`doc.tables`, nested tables → rows → cells → paragraphs). -/
structure Docx where
  paragraphs : List Paragraph
  tables : List (List (List (List Paragraph)))
deriving DecidableEq

/-- `process_docx_threaded` (main.py lines 82-222) as a function of the
rewrite oracles, the `preserve_formatting` flag, the worker completion
order and the input document: collect results from the pool, apply them
in document order, run the sequential table pass, and report
`(output document, success_count, total_paragraphs)`. -/
def process_docx_threaded (R : Nat → String → Except String String)
    (RT : List Nat → String → Except String String)
    (preserve_formatting : Bool) (order : List (Nat × Paragraph))
    (doc : Docx) : Docx × Nat × Nat :=
  let m := buildResults R preserve_formatting order
  let ap := applyResults preserve_formatting m doc.paragraphs
  (⟨ap.1, tablesPass RT doc.tables⟩, ap.2,
    (submittedTasks doc.paragraphs).length)

/-- The outcome of one HTTP POST to the Ollama API as observed by
`humanize_with_ollama` (ollama_humanize.py): the connection may be
refused, the request may time out, or a response arrives carrying a
status code, the `message.content` field of its JSON body (`none` when
the field chain is absent), and the detail string the code uses when
reporting a non-2xx response (the parsed JSON body when it parses, else
the raw response text). -/
inductive OllamaHttp where
  | connError
  | timeout
  | resp (status : Nat) (content : Option String) (detail : String)
deriving DecidableEq

/-- The fixed request budget, in seconds, passed to every Ollama request
(`timeout=120` in ollama_humanize.py). -/
def ollamaTimeoutSeconds : Nat := 120

/-- `humanize_with_ollama` (ollama_humanize.py lines 25-110) in the chat
format (`use_system_prompt=True`): a 200 response yields
`result.get("message", \x7b\x7d).get("content", "").strip()`; a non-200
response raises "Ollama API returned status code ...", which the outer
handler rewraps as "Error calling Ollama: ..."; a refused connection and
a timeout raise their own distinct messages. -/
def humanize_with_ollama (ollama_url : String) (r : OllamaHttp) :
    Except String String :=
  match r with
  | .connError =>
    .error ("Could not connect to Ollama. Make sure Ollama is running at "
      ++ ollama_url)
  | .timeout => .error "Request to Ollama timed out"
  | .resp status content detail =>
    if status = 200 then .ok (pyStrip (content.getD ""))
    else
      .error ("Error calling Ollama: Ollama API returned status code "
        ++ toString status ++ ": " ++ detail)

/-- One parsed line of a streaming Ollama response: its `message.content`
text (defaulted to the empty string when absent) and its `done` flag
(defaulted to false). -/
structure Chunk where
  content : String
  done : Bool
deriving DecidableEq

/-- The body of a streaming response: one entry per line delivered by
`response.iter_lines()`, where `none` stands for an empty line or a line
that fails JSON decoding (both are skipped by the loop). -/
abbrev StreamLines := List (Option Chunk)

/-- The chunk-accumulation loop of `humanize_with_ollama_streaming`
(ollama_humanize.py lines 179-201): each parsed chunk's text is appended
to `full_response` and delivered to the callback when non-empty; the loop
stops after the first chunk whose `done` flag is set.  Returns the
accumulated text and the list of callback deliveries in order. -/
def streamLoop : StreamLines → String × List String
  | [] => ("", [])
  | none :: rest => streamLoop rest
  | some c :: rest =>
    if c.done then (c.content, if c.content == "" then [] else [c.content])
    else
      let r := streamLoop rest
      (c.content ++ r.1, (if c.content == "" then [] else [c.content]) ++ r.2)

/-- The streaming request outcome for `humanize_with_ollama_streaming`. -/
inductive OllamaStreamHttp where
  | connError
  | timeout
  | resp (status : Nat) (lines : StreamLines) (detail : String)
deriving DecidableEq

/-- `humanize_with_ollama_streaming` (ollama_humanize.py lines 113-217)
in the chat format: on a 200 response it runs the chunk loop and returns
`full_response.strip()`, paired here with the ordered list of texts
delivered to the caller's callback; the error cases mirror
`humanize_with_ollama`. -/
def humanize_with_ollama_streaming (ollama_url : String) :
    OllamaStreamHttp → Except String (String × List String)
  | .connError =>
    .error ("Could not connect to Ollama. Make sure Ollama is running at "
      ++ ollama_url)
  | .timeout => .error "Request to Ollama timed out"
  | .resp status lines detail =>
    if status = 200 then
      let r := streamLoop lines
      .ok (pyStrip r.1, r.2)
    else
      .error ("Error calling Ollama: Ollama API returned status code "
        ++ toString status ++ ": " ++ detail)

/-- The texts of the chunks the streaming loop actually consumes: every
parsed chunk up to and including the first one flagged `done`. -/
def processedContents : StreamLines → List String
  | [] => []
  | none :: rest => processedContents rest
  | some c :: rest =>
    if c.done then [c.content] else c.content :: processedContents rest

/-- The entry a python dict lookup would find after inserting the entries
of `order` left to right: the last entry whose key is `i`, if any. -/
def lastEntry (i : Nat) : List (Nat × Paragraph) → Option (Nat × Paragraph)
  | [] => none
  | a :: l =>
    match lastEntry i l with
    | some b => some b
    | none => if a.1 = i then some a else none

/-- A paragraph format with every attribute unset, for concrete tests. -/
def defaultPF : ParagraphFormat := ⟨none, none, none, none, none, none, none⟩

/-- Concrete test paragraph: one default-styled run "Hello world.". -/
def pHello : Paragraph := ⟨[⟨"Hello world.", defaultRunFormat⟩], defaultPF⟩

/-- Concrete test paragraph: no runs, hence empty text. -/
def pEmpty : Paragraph := ⟨[], defaultPF⟩

/-- Concrete test paragraph: one default-styled run "AI text here.". -/
def pAI : Paragraph := ⟨[⟨"AI text here.", defaultRunFormat⟩], defaultPF⟩

/-- The 3-unit scenario document `["Hello world.", "", "AI text here."]`. -/
def doc3 : Docx := ⟨[pHello, pEmpty, pAI], []⟩

/-- Scenario rewrite oracle: index 0 succeeds, every other index raises. -/
def R6 : Nat → String → Except String String :=
  fun i _ => if i = 0 then .ok "Hey there, world!" else .error "boom"

/-- A table-cell rewrite oracle that always raises, for concrete tests. -/
def RT0 : List Nat → String → Except String String := fun _ _ => .error "cell boom"

/-- A table-cell rewrite oracle that echoes its input, for concrete tests. -/
def RTok : List Nat → String → Except String String := fun _ s => .ok s

/-- A variant of `R6` whose injected failure at index 2 is removed, for the
isolation tests: it agrees with `R6` everywhere else. -/
def R6b : Nat → String → Except String String :=
  fun i s => if i = 2 then .ok "patched" else R6 i s

theorem process_paragraph_threaded_fst (R : Nat → String → Except String String)
    (preserve_formatting : Bool) (task : Nat × Paragraph) :
    (process_paragraph_threaded R preserve_formatting task).1 = task.1 := by
  unfold process_paragraph_threaded
  cases R task.1 (paraText task.2) <;> rfl

theorem foldl_results_lookup (R : Nat → String → Except String String)
    (pres : Bool) (order : List (Nat × Paragraph)) :
    ∀ (m0 : Nat → Option Outcome) (i : Nat),
      order.foldl
        (fun m task =>
          let r := process_paragraph_threaded R pres task
          fun j => if j = r.1 then some r.2 else m j) m0 i =
      (match lastEntry i order with
       | some a => some (process_paragraph_threaded R pres a).2
       | none => m0 i) := by
  induction order with
  | nil => intro m0 i; rfl
  | cons a l ih =>
    intro m0 i
    rw [List.foldl_cons, ih]
    cases hl : lastEntry i l with
    | some b => simp only [lastEntry, hl]
    | none =>
      simp only [lastEntry, hl, process_paragraph_threaded_fst]
      by_cases hia : a.1 = i
      · subst hia; simp
      · have hia2 : ¬i = a.1 := fun h => hia h.symm
        simp [hia, hia2]

theorem buildResults_lookup (R : Nat → String → Except String String)
    (pres : Bool) (order : List (Nat × Paragraph)) (i : Nat) :
    buildResults R pres order i =
      (match lastEntry i order with
       | some a => some (process_paragraph_threaded R pres a).2
       | none => none) := by
  unfold buildResults
  exact foldl_results_lookup R pres order _ i

theorem lastEntry_mem {i : Nat} :
    ∀ {order : List (Nat × Paragraph)} {a : Nat × Paragraph},
      lastEntry i order = some a → a ∈ order ∧ a.1 = i := by
  intro order
  induction order with
  | nil => intro a h; cases h
  | cons b l ih =>
    intro a h
    unfold lastEntry at h
    cases hl : lastEntry i l with
    | some c =>
      rw [hl] at h
      have hac : c = a := by cases h; rfl
      subst hac
      exact ⟨List.mem_cons_of_mem _ (ih hl).1, (ih hl).2⟩
    | none =>
      rw [hl] at h
      by_cases hb : b.1 = i
      · simp only [hb, if_pos] at h
        cases h
        exact ⟨List.mem_cons_self _ _, hb⟩
      · simp [hb] at h

theorem lastEntry_eq_none {i : Nat} {order : List (Nat × Paragraph)} :
    lastEntry i order = none ↔ ∀ a ∈ order, a.1 ≠ i := by
  induction order with
  | nil => simp [lastEntry]
  | cons b l ih =>
    unfold lastEntry
    cases hl : lastEntry i l with
    | some c =>
      have hc := lastEntry_mem hl
      constructor
      · intro h; cases h
      · intro h
        exact (h c (List.mem_cons_of_mem _ hc.1) hc.2).elim
    | none =>
      have hall := ih.mp hl
      by_cases hb : b.1 = i
      · rw [if_pos hb]
        constructor
        · intro h; cases h
        · intro h
          exact absurd hb (h b (List.mem_cons_self _ _))
      · rw [if_neg hb]
        constructor
        · intro _ a ha
          rcases List.mem_cons.mp ha with rfl | ha2
          · exact hb
          · exact hall a ha2
        · intro _; rfl

theorem lastEntry_of_nodup {i : Nat} :
    ∀ {order : List (Nat × Paragraph)} {a : Nat × Paragraph},
      (order.map Prod.fst).Nodup → a ∈ order → a.1 = i →
      lastEntry i order = some a := by
  intro order
  induction order with
  | nil => intro a _ ha _; cases ha
  | cons b l ih =>
    intro a hnd ha hai
    have hnd2 : (l.map Prod.fst).Nodup := (List.nodup_cons.mp hnd).2
    have hbl : b.1 ∉ l.map Prod.fst := (List.nodup_cons.mp hnd).1
    unfold lastEntry
    rcases List.mem_cons.mp ha with rfl | ha2
    · have hl : lastEntry i l = none := by
        rw [lastEntry_eq_none]
        intro c hc hci
        exact hbl (List.mem_map.mpr ⟨c, hc, by rw [hci, hai]⟩)
      rw [hl]
      simp [hai]
    · rw [ih hnd2 ha2 hai]

theorem lastEntry_perm {o1 o2 : List (Nat × Paragraph)}
    (h : o1.Perm o2) (hnd : (o2.map Prod.fst).Nodup) (i : Nat) :
    lastEntry i o1 = lastEntry i o2 := by
  have hnd1 : (o1.map Prod.fst).Nodup := ((h.map Prod.fst).nodup_iff).mpr hnd
  cases h2 : lastEntry i o2 with
  | some a =>
    exact lastEntry_of_nodup hnd1 (h.mem_iff.mpr (lastEntry_mem h2).1)
      (lastEntry_mem h2).2
  | none =>
    rw [lastEntry_eq_none] at h2 ⊢
    exact fun a ha => h2 a (h.mem_iff.mp ha)

theorem submittedTasks_keys_nodup (paras : List Paragraph) :
    ((submittedTasks paras).map Prod.fst).Nodup :=
  List.Nodup.sublist ((List.filter_sublist paras.enum).map Prod.fst)
    (List.nodup_enum_map_fst paras)

theorem mem_submittedTasks {paras : List Paragraph} {i : Nat} {p : Paragraph} :
    (i, p) ∈ submittedTasks paras ↔ paras[i]? = some p ∧ nonBlank p = true := by
  unfold submittedTasks
  rw [List.mem_filter, List.mk_mem_enum_iff_getElem?]

theorem mem_submittedIndices {paras : List Paragraph} {i : Nat} :
    i ∈ submittedIndices paras ↔ ∃ p, (i, p) ∈ submittedTasks paras := by
  unfold submittedIndices
  rw [List.mem_map]
  constructor
  · rintro ⟨⟨j, p⟩, hm, rfl⟩
    exact ⟨p, hm⟩
  · rintro ⟨p, hm⟩
    exact ⟨(i, p), hm, rfl⟩

theorem buildResults_of_mem (R : Nat → String → Except String String)
    (pres : Bool) {paras : List Paragraph} {order : List (Nat × Paragraph)}
    {i : Nat} {p : Paragraph}
    (h : order.Perm (submittedTasks paras)) (hm : (i, p) ∈ submittedTasks paras) :
    buildResults R pres order i =
      some (process_paragraph_threaded R pres (i, p)).2 := by
  rw [buildResults_lookup, lastEntry_perm h (submittedTasks_keys_nodup paras),
    lastEntry_of_nodup (submittedTasks_keys_nodup paras) hm rfl]

theorem buildResults_of_not_mem (R : Nat → String → Except String String)
    (pres : Bool) {paras : List Paragraph} {order : List (Nat × Paragraph)}
    {i : Nat}
    (h : order.Perm (submittedTasks paras)) (hm : i ∉ submittedIndices paras) :
    buildResults R pres order i = none := by
  rw [buildResults_lookup, lastEntry_perm h (submittedTasks_keys_nodup paras)]
  cases hle : lastEntry i (submittedTasks paras) with
  | none => rfl
  | some a =>
    have h1 := lastEntry_mem hle
    exact absurd
      (mem_submittedIndices.mpr ⟨a.2, by rw [← h1.2]; exact h1.1⟩) hm

theorem buildResults_isSome (R : Nat → String → Except String String)
    (pres : Bool) {paras : List Paragraph} {order : List (Nat × Paragraph)}
    (h : order.Perm (submittedTasks paras)) (i : Nat) :
    (buildResults R pres order i).isSome = true ↔ i ∈ submittedIndices paras := by
  constructor
  · intro hs
    by_contra hmem
    rw [buildResults_of_not_mem R pres h hmem] at hs
    cases hs
  · intro hmem
    rcases mem_submittedIndices.mp hmem with ⟨p, hp⟩
    rw [buildResults_of_mem R pres h hp]
    rfl

theorem buildResults_perm_invariant (R : Nat → String → Except String String)
    (pres : Bool) {paras : List Paragraph} {o1 o2 : List (Nat × Paragraph)}
    (h1 : o1.Perm (submittedTasks paras)) (h2 : o2.Perm (submittedTasks paras)) :
    buildResults R pres o1 = buildResults R pres o2 :=
  funext fun i => by
    rw [buildResults_lookup, buildResults_lookup,
      lastEntry_perm h1 (submittedTasks_keys_nodup paras),
      lastEntry_perm h2 (submittedTasks_keys_nodup paras)]

theorem buildResults_congr_off (R R' : Nat → String → Except String String)
    (pres : Bool) (order : List (Nat × Paragraph)) {i : Nat}
    (hagree : ∀ j, j ≠ i → R j = R' j) (j : Nat) (hj : j ≠ i) :
    buildResults R pres order j = buildResults R' pres order j := by
  rw [buildResults_lookup, buildResults_lookup]
  cases hle : lastEntry j order with
  | none => rfl
  | some a =>
    have hak := (lastEntry_mem hle).2
    dsimp only
    unfold process_paragraph_threaded
    rw [hagree a.1 (by rw [hak]; exact hj)]

theorem applyResults_getElem (pres : Bool) (m : Nat → Option Outcome)
    (paras : List Paragraph) (i : Nat) :
    (applyResults pres m paras).1[i]? =
      (paras[i]?).map (fun p => (applyOutcome pres m i p).1) := by
  unfold applyResults
  rw [List.getElem?_map, List.getElem?_map, List.getElem?_enum]
  cases paras[i]? <;> rfl

/-- C1: for every document whose non-empty (after whitespace-strip)
paragraphs form the submitted task set, and for every completion order of
the worker pool (hence for every pool size and interleaving), the results
map holds exactly one outcome per submitted paragraph index — an index has
an entry iff it was submitted, the submitted indices are duplicate-free —
and an exception raised inside a worker's rewrite call is converted into a
failure outcome for that index rather than losing the entry. -/
theorem scheduler_completeness (R : Nat → String → Except String String)
    (pres : Bool) (paras : List Paragraph) (order : List (Nat × Paragraph))
    (horder : order.Perm (submittedTasks paras)) :
    (∀ i, (buildResults R pres order i).isSome = true ↔
      i ∈ submittedIndices paras)
    ∧ (submittedIndices paras).Nodup
    ∧ (∀ i p e, (i, p) ∈ submittedTasks paras → R i (paraText p) = .error e →
        buildResults R pres order i = some (.failure e)) := by
  refine ⟨fun i => buildResults_isSome R pres horder i,
    submittedTasks_keys_nodup paras, ?_⟩
  intro i p e hm he
  rw [buildResults_of_mem R pres horder hm]
  unfold process_paragraph_threaded
  dsimp only
  rw [he]

/-- Witness for C1 on the 3-unit scenario document with the pool
completing in reverse order. -/
theorem scheduler_completeness_witness :
    ((submittedTasks doc3.paragraphs).reverse.Perm (submittedTasks doc3.paragraphs))
    ∧ ((∀ i, (buildResults R6 true (submittedTasks doc3.paragraphs).reverse i).isSome = true ↔
          i ∈ submittedIndices doc3.paragraphs)
       ∧ (submittedIndices doc3.paragraphs).Nodup
       ∧ (∀ i p e, (i, p) ∈ submittedTasks doc3.paragraphs →
            R6 i (paraText p) = .error e →
            buildResults R6 true (submittedTasks doc3.paragraphs).reverse i =
              some (.failure e))) :=
  ⟨by decide,
   scheduler_completeness R6 true doc3.paragraphs
     (submittedTasks doc3.paragraphs).reverse (by decide)⟩

/-- C2: the application phase mutates each paragraph index independently
(the output paragraph at index i is a function of the input paragraph at i
and the outcome recorded for i alone — ascending original document order),
and the final document is a function of the outcome map alone: any two
completion orders yield byte-identical outputs. -/
theorem result_application_deterministic
    (R : Nat → String → Except String String)
    (RT : List Nat → String → Except String String)
    (pres : Bool) (doc : Docx) (o1 o2 : List (Nat × Paragraph))
    (h1 : o1.Perm (submittedTasks doc.paragraphs))
    (h2 : o2.Perm (submittedTasks doc.paragraphs)) :
    process_docx_threaded R RT pres o1 doc =
      process_docx_threaded R RT pres o2 doc
    ∧ (∀ i, (process_docx_threaded R RT pres o1 doc).1.paragraphs[i]? =
        (doc.paragraphs[i]?).map
          (fun p => (applyOutcome pres (buildResults R pres o1) i p).1)) := by
  constructor
  · unfold process_docx_threaded
    rw [buildResults_perm_invariant R pres h1 h2]
  · intro i
    exact applyResults_getElem pres (buildResults R pres o1) doc.paragraphs i

/-- Witness for C2: reversed versus submission completion order on the
3-unit scenario document. -/
theorem result_application_deterministic_witness :
    ((submittedTasks doc3.paragraphs).reverse.Perm (submittedTasks doc3.paragraphs))
    ∧ ((submittedTasks doc3.paragraphs).Perm (submittedTasks doc3.paragraphs))
    ∧ (process_docx_threaded R6 RT0 true (submittedTasks doc3.paragraphs).reverse doc3 =
         process_docx_threaded R6 RT0 true (submittedTasks doc3.paragraphs) doc3
       ∧ (∀ i, (process_docx_threaded R6 RT0 true (submittedTasks doc3.paragraphs).reverse doc3).1.paragraphs[i]? =
           (doc3.paragraphs[i]?).map
             (fun p => (applyOutcome true
               (buildResults R6 true (submittedTasks doc3.paragraphs).reverse) i p).1))) :=
  ⟨by decide, by decide,
   result_application_deterministic R6 RT0 true doc3
     (submittedTasks doc3.paragraphs).reverse (submittedTasks doc3.paragraphs)
     (by decide) (by decide)⟩

/-- C5: sequential mode is outcome-identical to concurrent mode — for a
fixed input document and deterministic rewrite oracle, any completion
order (any pool size) produces exactly the output of the sequential run,
in which tasks complete in submission order. -/
theorem sequential_equals_concurrent
    (R : Nat → String → Except String String)
    (RT : List Nat → String → Except String String)
    (pres : Bool) (doc : Docx) (order : List (Nat × Paragraph))
    (horder : order.Perm (submittedTasks doc.paragraphs)) :
    process_docx_threaded R RT pres order doc =
      process_docx_threaded R RT pres (submittedTasks doc.paragraphs) doc := by
  unfold process_docx_threaded
  rw [buildResults_perm_invariant R pres horder (List.Perm.refl _)]

/-- Witness for C5 with a reversed completion order. -/
theorem sequential_equals_concurrent_witness :
    ((submittedTasks doc3.paragraphs).reverse.Perm (submittedTasks doc3.paragraphs))
    ∧ process_docx_threaded R6 RT0 true (submittedTasks doc3.paragraphs).reverse doc3 =
        process_docx_threaded R6 RT0 true (submittedTasks doc3.paragraphs) doc3 :=
  ⟨by decide,
   sequential_equals_concurrent R6 RT0 true doc3
     (submittedTasks doc3.paragraphs).reverse (by decide)⟩

/-- C3: per-unit failure is contained and atomic — when the rewrite call
for submitted paragraph i raises, the application phase leaves paragraph i
entirely unchanged (runs, texts and formatting); replacing the failing
oracle by any oracle agreeing off index i changes neither the outcome nor
the applied paragraph of any index j ≠ i; and the batch is not aborted:
every submitted index still has an outcome. -/
theorem failure_isolation
    (R Rv : Nat → String → Except String String)
    (RT : List Nat → String → Except String String)
    (pres : Bool) (doc : Docx) (order : List (Nat × Paragraph))
    (i : Nat) (p : Paragraph) (e : String)
    (horder : order.Perm (submittedTasks doc.paragraphs))
    (hmem : (i, p) ∈ submittedTasks doc.paragraphs)
    (hfail : R i (paraText p) = .error e)
    (hagree : ∀ j, j ≠ i → R j = Rv j) :
    (process_docx_threaded R RT pres order doc).1.paragraphs[i]? = some p
    ∧ (∀ j, j ≠ i →
        (process_docx_threaded R RT pres order doc).1.paragraphs[j]? =
          (process_docx_threaded Rv RT pres order doc).1.paragraphs[j]?)
    ∧ (∀ j, j ≠ i →
        buildResults R pres order j = buildResults Rv pres order j)
    ∧ (∀ j, (buildResults R pres order j).isSome = true ↔
        j ∈ submittedIndices doc.paragraphs) := by
  have hbi : buildResults R pres order i = some (.failure e) := by
    rw [buildResults_of_mem R pres horder hmem]
    unfold process_paragraph_threaded
    dsimp only
    rw [hfail]
  have hip : doc.paragraphs[i]? = some p := (mem_submittedTasks.mp hmem).1
  have hcong := buildResults_congr_off R Rv pres order hagree
  refine ⟨?_, ?_, hcong, fun j => buildResults_isSome R pres horder j⟩
  · show (applyResults pres (buildResults R pres order) doc.paragraphs).1[i]? = some p
    rw [applyResults_getElem, hip]
    dsimp only [Option.map]
    unfold applyOutcome
    rw [hbi]
  · intro j hj
    show (applyResults pres (buildResults R pres order) doc.paragraphs).1[j]? =
      (applyResults pres (buildResults Rv pres order) doc.paragraphs).1[j]?
    rw [applyResults_getElem, applyResults_getElem]
    cases doc.paragraphs[j]? with
    | none => rfl
    | some q =>
      dsimp only [Option.map]
      unfold applyOutcome
      rw [hcong j hj]

/-- Witness for C3: the failure injected at index 2 of the scenario
document, against the patched oracle that succeeds there. -/
theorem failure_isolation_witness :
    ((submittedTasks doc3.paragraphs).reverse.Perm (submittedTasks doc3.paragraphs))
    ∧ ((2, pAI) ∈ submittedTasks doc3.paragraphs)
    ∧ (R6 2 (paraText pAI) = .error "boom")
    ∧ ((process_docx_threaded R6 RT0 true (submittedTasks doc3.paragraphs).reverse doc3).1.paragraphs[2]? = some pAI
       ∧ (∀ j, j ≠ 2 →
           (process_docx_threaded R6 RT0 true (submittedTasks doc3.paragraphs).reverse doc3).1.paragraphs[j]? =
             (process_docx_threaded R6b RT0 true (submittedTasks doc3.paragraphs).reverse doc3).1.paragraphs[j]?)
       ∧ (∀ j, j ≠ 2 →
           buildResults R6 true (submittedTasks doc3.paragraphs).reverse j =
             buildResults R6b true (submittedTasks doc3.paragraphs).reverse j)
       ∧ (∀ j, (buildResults R6 true (submittedTasks doc3.paragraphs).reverse j).isSome = true ↔
           j ∈ submittedIndices doc3.paragraphs)) :=
  ⟨by decide, by decide, rfl,
   failure_isolation R6 R6b RT0 true doc3
     (submittedTasks doc3.paragraphs).reverse 2 pAI "boom"
     (by decide) (by decide) rfl
     (fun j hj => by unfold R6b; funext s; rw [if_neg hj])⟩

/-- C4: an empty or whitespace-only paragraph is never submitted to a
worker, receives no outcome record, is byte-identical in the output
document, and a blank table-cell paragraph is likewise skipped untouched
by the table pass. -/
theorem empty_units_untouched
    (R : Nat → String → Except String String)
    (RT : List Nat → String → Except String String)
    (pres : Bool) (doc : Docx) (order : List (Nat × Paragraph))
    (i : Nat) (p : Paragraph)
    (horder : order.Perm (submittedTasks doc.paragraphs))
    (hip : doc.paragraphs[i]? = some p)
    (hblank : pyStrip (paraText p) = "") :
    ((i, p) ∉ submittedTasks doc.paragraphs)
    ∧ buildResults R pres order i = none
    ∧ (process_docx_threaded R RT pres order doc).1.paragraphs[i]? = some p
    ∧ (∀ pos q, pyStrip (paraText q) = "" → processCellPara RT pos q = q) := by
  have hnb : nonBlank p = false := by
    unfold nonBlank
    rw [hblank]
    rfl
  have hnotmem : (i, p) ∉ submittedTasks doc.paragraphs := by
    intro hm
    have h2 := (mem_submittedTasks.mp hm).2
    rw [hnb] at h2
    cases h2
  have hkey : i ∉ submittedIndices doc.paragraphs := by
    intro hk
    rcases mem_submittedIndices.mp hk with ⟨q, hq⟩
    have h1 := mem_submittedTasks.mp hq
    have hqp : q = p := by
      have := h1.1
      rw [hip] at this
      exact (Option.some.inj this).symm
    subst hqp
    have h2 := h1.2
    rw [hnb] at h2
    cases h2
  have hnone := buildResults_of_not_mem R pres horder hkey
  refine ⟨hnotmem, hnone, ?_, ?_⟩
  · show (applyResults pres (buildResults R pres order) doc.paragraphs).1[i]? = some p
    rw [applyResults_getElem, hip]
    dsimp only [Option.map]
    unfold applyOutcome
    rw [hnone]
  · intro pos q hq
    unfold processCellPara
    rw [hq]
    rfl

/-- Witness for C4: the empty middle paragraph of the scenario document. -/
theorem empty_units_untouched_witness :
    ((submittedTasks doc3.paragraphs).reverse.Perm (submittedTasks doc3.paragraphs))
    ∧ (doc3.paragraphs[1]? = some pEmpty)
    ∧ (pyStrip (paraText pEmpty) = "")
    ∧ (((1, pEmpty) ∉ submittedTasks doc3.paragraphs)
       ∧ buildResults R6 true (submittedTasks doc3.paragraphs).reverse 1 = none
       ∧ (process_docx_threaded R6 RT0 true (submittedTasks doc3.paragraphs).reverse doc3).1.paragraphs[1]? = some pEmpty
       ∧ (∀ pos q, pyStrip (paraText q) = "" → processCellPara RT0 pos q = q)) :=
  ⟨by decide, rfl, rfl,
   empty_units_untouched R6 RT0 true doc3
     (submittedTasks doc3.paragraphs).reverse 1 pEmpty
     (by decide) rfl rfl⟩

/-- C6: on the 3-unit document ["Hello world.", "", "AI text here."] with
the rewrite failing at index 2 and succeeding at index 0, any completion
order produces the document where unit 0 carries the rewritten text,
unit 1 (empty, never submitted) and unit 2 (failed) are untouched, and
the report is 1 successfully applied out of 2 submitted. -/
theorem scenario_three_units
    (RT : List Nat → String → Except String String)
    (order : List (Nat × Paragraph))
    (horder : order.Perm (submittedTasks doc3.paragraphs)) :
    process_docx_threaded R6 RT true order doc3 =
      (⟨[⟨[⟨"Hey there, world!", defaultRunFormat⟩], defaultPF⟩, pEmpty, pAI],
        []⟩, 1, 2) := by
  have hm : buildResults R6 true order =
      buildResults R6 true (submittedTasks doc3.paragraphs) :=
    buildResults_perm_invariant R6 true horder (List.Perm.refl _)
  have ht : tablesPass RT doc3.tables = [] := rfl
  simp only [process_docx_threaded]
  rw [hm, ht]
  decide

/-- Witness for C6 with a reversed completion order. -/
theorem scenario_three_units_witness :
    ((submittedTasks doc3.paragraphs).reverse.Perm (submittedTasks doc3.paragraphs))
    ∧ process_docx_threaded R6 RT0 true (submittedTasks doc3.paragraphs).reverse doc3 =
        (⟨[⟨[⟨"Hey there, world!", defaultRunFormat⟩], defaultPF⟩, pEmpty, pAI],
          []⟩, 1, 2) :=
  ⟨by decide,
   scenario_three_units RT0 (submittedTasks doc3.paragraphs).reverse (by decide)⟩

/-- C7: formatting round-trip under `preserve_formatting` — the paragraph
the pipeline writes at a successfully rewritten index i is exactly
`applyWithFormat` of the original paragraph, its new text and the captured
snapshot; the paragraph-level attributes equal the captured values, all
pre-existing runs have their texts cleared with the new text written into
the first run carrying the first captured run's style, and a fresh
default-styled run is created when the paragraph had none. -/
theorem formatting_round_trip
    (R : Nat → String → Except String String)
    (RT : List Nat → String → Except String String)
    (doc : Docx) (order : List (Nat × Paragraph))
    (i : Nat) (p : Paragraph) (t : String)
    (horder : order.Perm (submittedTasks doc.paragraphs))
    (hmem : (i, p) ∈ submittedTasks doc.paragraphs)
    (hok : R i (paraText p) = .ok t) :
    (process_docx_threaded R RT true order doc).1.paragraphs[i]? =
      some (applyWithFormat p t (captureFormatting p))
    ∧ (applyWithFormat p t (captureFormatting p)).pfmt = p.pfmt
    ∧ (p.runs = [] →
        (applyWithFormat p t (captureFormatting p)).runs =
          [⟨t, defaultRunFormat⟩])
    ∧ (∀ r rest, p.runs = r :: rest →
        (applyWithFormat p t (captureFormatting p)).runs =
          ⟨t, r.fmt⟩ :: rest.map (fun s => { s with text := "" })) := by
  have hb : buildResults R true order i =
      some (.success t (some (captureFormatting p))) := by
    rw [buildResults_of_mem R true horder hmem]
    unfold process_paragraph_threaded
    dsimp only
    rw [hok]
    rfl
  refine ⟨?_, rfl, ?_, ?_⟩
  · show (applyResults true (buildResults R true order) doc.paragraphs).1[i]? = _
    rw [applyResults_getElem, (mem_submittedTasks.mp hmem).1]
    dsimp only [Option.map]
    unfold applyOutcome
    rw [hb]
    rfl
  · intro h
    unfold applyWithFormat captureFormatting
    rw [h]
    rfl
  · intro r rest h
    unfold applyWithFormat captureFormatting apply_run_format
    rw [h]
    rfl

/-- Witness for C7: index 0 of the scenario document, successfully
rewritten with formatting preservation. -/
theorem formatting_round_trip_witness :
    ((submittedTasks doc3.paragraphs).reverse.Perm (submittedTasks doc3.paragraphs))
    ∧ ((0, pHello) ∈ submittedTasks doc3.paragraphs)
    ∧ (R6 0 (paraText pHello) = .ok "Hey there, world!")
    ∧ ((process_docx_threaded R6 RT0 true (submittedTasks doc3.paragraphs).reverse doc3).1.paragraphs[0]? =
         some (applyWithFormat pHello "Hey there, world!" (captureFormatting pHello))
       ∧ (applyWithFormat pHello "Hey there, world!" (captureFormatting pHello)).pfmt = pHello.pfmt
       ∧ (pHello.runs = [] →
           (applyWithFormat pHello "Hey there, world!" (captureFormatting pHello)).runs =
             [⟨"Hey there, world!", defaultRunFormat⟩])
       ∧ (∀ r rest, pHello.runs = r :: rest →
           (applyWithFormat pHello "Hey there, world!" (captureFormatting pHello)).runs =
             ⟨"Hey there, world!", r.fmt⟩ :: rest.map (fun s => { s with text := "" }))) :=
  ⟨by decide, by decide, rfl,
   formatting_round_trip R6 RT0 doc3
     (submittedTasks doc3.paragraphs).reverse 0 pHello "Hey there, world!"
     (by decide) (by decide) rfl⟩

theorem string_head_ne (a b : String) (h : a.data.head? ≠ b.data.head?) :
    a ≠ b :=
  fun he => h (he ▸ rfl)

theorem head_append_of_ne_nil (s t : String) (h : s.data ≠ []) :
    (s ++ t).data.head? = s.data.head? := by
  rw [String.data_append]
  cases hd : s.data with
  | nil => exact absurd hd h
  | cons c l => rfl

/-- C8 counterexample: on a 200 response whose body lacks the
`message`/`content` field, `humanize_with_ollama` succeeds with the empty
string instead of reporting a malformed-response failure. -/
theorem malformed_response_succeeds :
    humanize_with_ollama "http://localhost:11434" (.resp 200 none "") =
      .ok "" := rfl

/-- C8 (amended): the rewrite call fails with a distinct reportable reason
for connection-refused, timeout, and non-2xx backend error (the latter
carrying the status code and body detail); but a 200 response whose body
lacks the `message`/`content` field succeeds with the empty string — no
malformed-response failure is reported. -/
theorem rewrite_failure_kinds (url d : String) (c : Option String) (s : Nat)
    (hs : s ≠ 200) :
    humanize_with_ollama url .connError =
      .error ("Could not connect to Ollama. Make sure Ollama is running at "
        ++ url)
    ∧ humanize_with_ollama url .timeout = .error "Request to Ollama timed out"
    ∧ humanize_with_ollama url (.resp s c d) =
        .error ("Error calling Ollama: Ollama API returned status code "
          ++ toString s ++ ": " ++ d)
    ∧ humanize_with_ollama url (.resp 200 none d) = .ok ""
    ∧ humanize_with_ollama url .connError ≠ humanize_with_ollama url .timeout
    ∧ humanize_with_ollama url .connError ≠ humanize_with_ollama url (.resp s c d)
    ∧ humanize_with_ollama url .timeout ≠ humanize_with_ollama url (.resp s c d) := by
  have hC : ("Could not connect to Ollama. Make sure Ollama is running at "
      ++ url).data.head? = some 'C' := by
    rw [head_append_of_ne_nil _ _ (by decide)]
    decide
  have h1 : ("Error calling Ollama: Ollama API returned status code ").data ≠ [] := by
    decide
  have h2 : ("Error calling Ollama: Ollama API returned status code "
      ++ toString s).data ≠ [] := by
    rw [String.data_append]
    exact List.append_ne_nil_of_left_ne_nil h1 _
  have h3 : ("Error calling Ollama: Ollama API returned status code "
      ++ toString s ++ ": ").data ≠ [] := by
    rw [String.data_append]
    exact List.append_ne_nil_of_left_ne_nil h2 _
  have hB : ("Error calling Ollama: Ollama API returned status code "
      ++ toString s ++ ": " ++ d).data.head? = some 'E' := by
    rw [head_append_of_ne_nil _ _ h3, head_append_of_ne_nil _ _ h2,
      head_append_of_ne_nil _ _ h1]
    decide
  have hCT : ("Could not connect to Ollama. Make sure Ollama is running at "
      ++ url) ≠ "Request to Ollama timed out" :=
    string_head_ne _ _ (by rw [hC]; decide)
  have hCB : ("Could not connect to Ollama. Make sure Ollama is running at "
        ++ url) ≠
      ("Error calling Ollama: Ollama API returned status code "
        ++ toString s ++ ": " ++ d) :=
    string_head_ne _ _ (by rw [hC, hB]; decide)
  have hTB : ("Request to Ollama timed out" : String) ≠
      ("Error calling Ollama: Ollama API returned status code "
        ++ toString s ++ ": " ++ d) :=
    string_head_ne _ _ (by rw [hB]; decide)
  have h200 : humanize_with_ollama url (.resp s c d) =
      .error ("Error calling Ollama: Ollama API returned status code "
        ++ toString s ++ ": " ++ d) := by
    unfold humanize_with_ollama
    dsimp only
    rw [if_neg hs]
  refine ⟨rfl, rfl, h200, rfl, ?_, ?_, ?_⟩
  · intro heq
    exact hCT (Except.error.inj heq)
  · intro heq
    rw [h200] at heq
    exact hCB (Except.error.inj heq)
  · intro heq
    rw [h200] at heq
    exact hTB (Except.error.inj heq)

/-- Witness for C8 at status 500. -/
theorem rewrite_failure_kinds_witness :
    (500 ≠ 200)
    ∧ humanize_with_ollama "http://localhost:11434" (.resp 500 none "boom") =
        .error ("Error calling Ollama: Ollama API returned status code "
          ++ toString 500 ++ ": " ++ "boom") :=
  ⟨by decide,
   (rewrite_failure_kinds "http://localhost:11434" "boom" none 500
     (by decide)).2.2.1⟩

theorem strConcat_filter_ne_empty (l : List String) :
    strConcat (l.filter (fun s => !(s == ""))) = strConcat l := by
  induction l with
  | nil => rfl
  | cons s l ih =>
    rw [List.filter_cons]
    by_cases hs : s = ""
    · subst hs
      rw [if_neg (by decide)]
      rw [ih]
      exact (String.empty_append _).symm
    · have hb : (!(s == "")) = true := by
        simp [hs]
      rw [hb, if_pos rfl]
      show s ++ strConcat (l.filter _) = s ++ strConcat l
      rw [ih]

theorem streamLoop_eq (lines : StreamLines) :
    streamLoop lines =
      (strConcat (processedContents lines),
       (processedContents lines).filter (fun s => !(s == ""))) := by
  induction lines with
  | nil => rfl
  | cons a rest ih =>
    cases a with
    | none =>
      simpa [streamLoop, processedContents] using ih
    | some c =>
      by_cases hd : c.done
      · by_cases hc : c.content = ""
        · simp [streamLoop, processedContents, hd, hc, strConcat,
            String.append_empty]
        · simp [streamLoop, processedContents, hd, hc, strConcat,
            String.append_empty]
      · by_cases hc : c.content = ""
        · simp [streamLoop, processedContents, hd, hc, ih, strConcat,
            String.empty_append]
        · simp [streamLoop, processedContents, hd, hc, ih, strConcat]

/-- C9: in a successful streaming run, the callback receives exactly the
non-empty chunk texts in delivery order, the returned string is the
whitespace-strip of the concatenation of all consumed chunk texts — which
equals the strip of the concatenation of the delivered chunks — and it is
exactly what the non-streaming call returns for the same response
content. -/
theorem streaming_matches_nonstreaming (url d : String) (lines : StreamLines) :
    (streamLoop lines).2 = (processedContents lines).filter (fun s => !(s == ""))
    ∧ (streamLoop lines).1 = strConcat (processedContents lines)
    ∧ humanize_with_ollama_streaming url (.resp 200 lines d) =
        .ok (pyStrip (strConcat (processedContents lines)),
          (processedContents lines).filter (fun s => !(s == "")))
    ∧ pyStrip (strConcat ((streamLoop lines).2)) = pyStrip ((streamLoop lines).1)
    ∧ humanize_with_ollama url
        (.resp 200 (some (strConcat (processedContents lines))) d) =
        .ok (pyStrip ((streamLoop lines).1)) := by
  have h := streamLoop_eq lines
  refine ⟨by rw [h], by rw [h], ?_, ?_, ?_⟩
  · unfold humanize_with_ollama_streaming
    dsimp only
    rw [if_pos rfl, h]
  · rw [h]
    dsimp only
    rw [strConcat_filter_ne_empty]
  · unfold humanize_with_ollama
    dsimp only
    rw [if_pos rfl, h]
    rfl

/-- C10: a non-blank table-cell paragraph whose rewrite succeeds has its
text replaced by the plain `paragraph.text` assignment — a single
default-styled run, discarding the original run-level formatting — with no
dependence on `preserve_formatting`; and cell rewrites never contribute to
the reported success count. -/
theorem table_cells_plain_assignment
    (R : Nat → String → Except String String)
    (RT RT2 : List Nat → String → Except String String)
    (pres : Bool) (order : List (Nat × Paragraph)) (doc : Docx)
    (pos : List Nat) (q : Paragraph) (t : String)
    (hq : pyStrip (paraText q) ≠ "")
    (hok : RT pos (paraText q) = .ok t) :
    processCellPara RT pos q = setText q t
    ∧ (processCellPara RT pos q).runs = [⟨t, defaultRunFormat⟩]
    ∧ (process_docx_threaded R RT pres order doc).2.1 =
        (process_docx_threaded R RT2 pres order doc).2.1
    ∧ (process_docx_threaded R RT true order doc).1.tables =
        (process_docx_threaded R RT false order doc).1.tables := by
  have hbeq : (pyStrip (paraText q) == "") = false :=
    beq_eq_false_iff_ne.mpr hq
  have h1 : processCellPara RT pos q = setText q t := by
    unfold processCellPara
    rw [hbeq, if_neg (by decide : ¬(false = true))]
    rw [hok]
  exact ⟨h1, by rw [h1]; rfl, rfl, rfl⟩

/-- Witness for C10: the cell text "AI text here." echoed by the cell
oracle. -/
theorem table_cells_plain_assignment_witness :
    (pyStrip (paraText pAI) ≠ "")
    ∧ (RTok [0, 0, 0, 0] (paraText pAI) = .ok "AI text here.")
    ∧ (processCellPara RTok [0, 0, 0, 0] pAI = setText pAI "AI text here."
       ∧ (processCellPara RTok [0, 0, 0, 0] pAI).runs =
           [⟨"AI text here.", defaultRunFormat⟩]
       ∧ (process_docx_threaded R6 RTok true (submittedTasks doc3.paragraphs) doc3).2.1 =
           (process_docx_threaded R6 RT0 true (submittedTasks doc3.paragraphs) doc3).2.1
       ∧ (process_docx_threaded R6 RTok true (submittedTasks doc3.paragraphs) doc3).1.tables =
           (process_docx_threaded R6 RTok false (submittedTasks doc3.paragraphs) doc3).1.tables) :=
  ⟨by decide, rfl,
   table_cells_plain_assignment R6 RTok RT0 true
     (submittedTasks doc3.paragraphs) doc3 [0, 0, 0, 0] pAI "AI text here."
     (by decide) rfl⟩

end DocHumanize
